import Mathlib

/-!
Shallow embedding of `src/get_yfinance.py` (formatting helpers, the
major-holders ownership resolver, the per-ticker fetch loop, and the
cleaned-table projection), together with theorems settling the frozen
claims about that program.

Modelling conventions:
* Python float values are modelled exactly as fractions `Fr` (an integer
  numerator over a natural denominator; every denominator built by the
  embedded program is a product of powers of ten, hence positive).  All
  numeric literals appearing in the program are decimal, so every
  arithmetic step the program performs (subtracting percentages,
  multiplying by 100, dividing by powers of ten) is exact in this model.
* The IEEE NaN value, which pandas uses as its missing-cell marker when a
  DataFrame row lacks a key that another row has, is modelled as a
  distinguished constructor `Val.vnan`; its behaviour under the two
  formatters (every ordered comparison with NaN is false, arithmetic on
  NaN yields NaN, and the `.2f` format spec renders NaN as "nan") is
  encoded directly in those functions.
* `float(s)` on strings is modelled for finite decimal literals with an
  optional sign, fraction part and exponent, after stripping surrounding
  whitespace.  The special spellings "inf"/"nan" and digit-group
  underscores, which CPython also accepts, have no finite rational value
  resp. do not occur in provider data, and are not modelled.
-/

/-- Exact fraction value standing for a Python float: `num / den`.
Operations below avoid normalisation (no gcd), so they reduce in the
kernel; all denominators produced by the embedded program are positive. -/
structure Fr where
  num : Int
  den : Nat
  deriving DecidableEq

/-- Embed an integer literal. -/
def Fr.ofInt (n : Int) : Fr := ⟨n, 1⟩

/-- Exact product of two fraction values. -/
def Fr.mulF (a b : Fr) : Fr := ⟨a.num * b.num, a.den * b.den⟩

/-- Exact difference of two fraction values. -/
def Fr.subF (a b : Fr) : Fr :=
  ⟨a.num * (b.den : Int) - b.num * (a.den : Int), a.den * b.den⟩

/-- Strict comparison `a < b` by cross multiplication (dens positive). -/
def Fr.ltF (a b : Fr) : Bool := a.num * (b.den : Int) < b.num * (a.den : Int)

/-- Comparison `a ≤ b` by cross multiplication (dens positive). -/
def Fr.leF (a b : Fr) : Bool := a.num * (b.den : Int) ≤ b.num * (a.den : Int)

/-- Absolute value. -/
def Fr.absF (a : Fr) : Fr := ⟨(a.num.natAbs : Int), a.den⟩

/-- Exact division by `10 ^ k` (the program only ever divides by 1e12,
1e9 and 1e6). -/
def Fr.divPow10 (a : Fr) (k : Nat) : Fr := ⟨a.num, a.den * 10 ^ k⟩

/-- The rational number a fraction value denotes. -/
def Fr.val (a : Fr) : ℚ := (a.num : ℚ) / (a.den : ℚ)

/-- A loosely typed cell value as it flows through the program: Python
`None`, the pandas missing marker NaN, a finite number, or a string. -/
inductive Val where
  | vnone
  | vnan
  | vnum (f : Fr)
  | vstr (s : String)
  deriving DecidableEq

/-- The integer nearest to `f * 100`, ties to even: the rounding CPython's
`"%.2f"` formatting performs (idealised on exact rationals). -/
def roundHalfEven2 (f : Fr) : Int :=
  let n := f.num * 100
  let d := (f.den : Int)
  let q := Int.fdiv n d
  let r := n - q * d
  if 2 * r < d then q
  else if d < 2 * r then q + 1
  else if q % 2 = 0 then q else q + 1

/-- Render a natural number below 100 with two digits. -/
def pad2 (n : Nat) : String := if n < 10 then "0" ++ toString n else toString n

/-- Python `f"{f:.2f}"` on a finite value: exactly two decimal digits.
(A negative value rounding to zero loses its sign here, where CPython
prints "-0.00"; no claim depends on that cell.) -/
def fmt2 (f : Fr) : String :=
  let n := roundHalfEven2 f
  let a := n.natAbs
  (if n < 0 then "-" else "") ++ toString (a / 100) ++ "." ++ pad2 (a % 100)

/-- Numeric value of a digit string (most significant first). -/
def digitsToNat (cs : List Char) : Nat :=
  cs.foldl (fun a c => a * 10 + (c.toNat - 48)) 0

/-- Exponent suffix of a float literal: optional sign then digits. -/
def parseExpTail (cs : List Char) : Option Int :=
  let p : Int × List Char :=
    match cs with
    | '+' :: t => (1, t)
    | '-' :: t => (-1, t)
    | t => (1, t)
  if p.2.isEmpty then Option.none
  else if p.2.all Char.isDigit then some (p.1 * (digitsToNat p.2 : Int))
  else Option.none

/-- Scale a mantissa by `10 ^ e`. -/
def applyExp (m : Fr) (e : Int) : Fr :=
  if 0 ≤ e then ⟨m.num * (10 : Int) ^ e.toNat, m.den⟩
  else ⟨m.num, m.den * 10 ^ (-e).toNat⟩

/-- Core of Python `float(s)`: `[sign] digits [. digits] [(e|E) exp]`,
at least one mantissa digit, nothing left over. -/
def pyFloatChars (cs : List Char) : Option Fr :=
  let p1 : Bool × List Char :=
    match cs with
    | '+' :: t => (false, t)
    | '-' :: t => (true, t)
    | t => (false, t)
  let ip := p1.2.takeWhile Char.isDigit
  let cs2 := p1.2.dropWhile Char.isDigit
  let p2 : List Char × List Char :=
    match cs2 with
    | '.' :: t => (t.takeWhile Char.isDigit, t.dropWhile Char.isDigit)
    | t => ([], t)
  if ip.isEmpty && p2.1.isEmpty then Option.none
  else
    let mag : Nat := digitsToNat ip * 10 ^ p2.1.length + digitsToNat p2.1
    let m : Fr := ⟨if p1.1 then -(mag : Int) else (mag : Int), 10 ^ p2.1.length⟩
    match p2.2 with
    | [] => some m
    | 'e' :: t => (parseExpTail t).map (applyExp m)
    | 'E' :: t => (parseExpTail t).map (applyExp m)
    | _ => Option.none

/-- Python `float(s)` on a string: surrounding whitespace is ignored;
`none` models the `ValueError` on a non-convertible string. -/
def pyFloatOfString (s : String) : Option Fr :=
  pyFloatChars
    (((s.toList.dropWhile Char.isWhitespace).reverse.dropWhile
        Char.isWhitespace).reverse)

/-- The magnitude-scaling branch chain of `format_number` after the
successful `float` conversion: thresholds compare `abs(n)`, largest
first, and every branch formats with two decimals. -/
def scaleNumber (f : Fr) : Val :=
  if Fr.leF (Fr.ofInt 1000000000000) (Fr.absF f) then
    Val.vstr (fmt2 (Fr.divPow10 f 12) ++ " T")
  else if Fr.leF (Fr.ofInt 1000000000) (Fr.absF f) then
    Val.vstr (fmt2 (Fr.divPow10 f 9) ++ " B")
  else if Fr.leF (Fr.ofInt 1000000) (Fr.absF f) then
    Val.vstr (fmt2 (Fr.divPow10 f 6) ++ " M")
  else Val.vstr (fmt2 f)

/-- `format_number` from `src/get_yfinance.py`: `None` passes through,
then `float(n)` is attempted (a failure returns the input unchanged),
then the magnitude branches apply.  `float(NaN)` succeeds, every
threshold comparison on NaN is false, and `f"{nan:.2f}"` is "nan". -/
def format_number (n : Val) : Val :=
  match n with
  | Val.vnone => Val.vnone
  | Val.vnan => Val.vstr "nan"
  | Val.vnum f => scaleNumber f
  | Val.vstr s =>
    match pyFloatOfString s with
    | some f => scaleNumber f
    | Option.none => Val.vstr s

/-- `format_percent` from `src/get_yfinance.py`.  The comparison `p > 1`
is evaluated before any conversion: on a string it raises `TypeError`,
which the handler turns into returning the input unchanged, so every
string input (convertible or not) passes through.  `NaN > 1` is false
and `NaN * 100` is NaN, rendered "nan" by the `.2f` spec. -/
def format_percent (p : Val) : Val :=
  match p with
  | Val.vnone => Val.vnone
  | Val.vnan => Val.vstr "nan%"
  | Val.vstr _ => p
  | Val.vnum f =>
    if Fr.ltF (Fr.ofInt 1) f then Val.vstr (fmt2 f ++ "%")
    else Val.vstr (fmt2 (Fr.mulF f (Fr.ofInt 100)) ++ "%")

/-- Lookup in the dict built by `dict(zip(col0, col1))`: a later row with
the same label overrides an earlier one. -/
def dget {α : Type} : List (String × α) → String → Option α
  | [], _ => Option.none
  | p :: t, k =>
    match dget t k with
    | some v => some v
    | Option.none => if p.1 = k then some p.2 else Option.none

/-- Python `str.strip('%')`: removes every leading and trailing `%`. -/
def pyStripChar (s : String) (c : Char) : String :=
  String.mk (((s.toList.dropWhile (fun x => x = c)).reverse.dropWhile
      (fun x => x = c)).reverse)

/-- The inner `pct_to_float` of `parse_major_holders`; cell values are
modelled as the strings the provider table carries, so the code's
`str(val)` is the identity.  The outer `some` is a normal return, `none`
is the `ValueError` that `float` raises on a non-convertible remainder
(it escapes `pct_to_float` to the resolver's own handler). -/
def pct_to_float (val : Option String) : Option (Option Fr) :=
  match val with
  | Option.none => some Option.none
  | some s =>
    match pyFloatOfString (pyStripChar s '%') with
    | some f => some (some f)
    | Option.none => Option.none

/-- The three optional ownership percentages the resolver returns. -/
structure OwnershipSummary where
  insider : Option Fr
  institutional : Option Fr
  floatRetail : Option Fr
  deriving DecidableEq

/-- The degraded all-`None` summary. -/
def allNoneSummary : OwnershipSummary := ⟨Option.none, Option.none, Option.none⟩

/-- Outcome of the remote major-holders lookup: the lookup itself raised,
or it returned (`None`, or the rows of the two-column table). -/
inductive MajorResult where
  | raise
  | ret (table : Option (List (String × String)))
  deriving DecidableEq

/-- `parse_major_holders` from `src/get_yfinance.py`, as a function of
the lookup outcome.  Every exception inside the `try` block (a raising
lookup, or a `ValueError` from `pct_to_float`) lands in the
`except Exception` handler, which returns the all-`None` summary. -/
def parse_major_holders (m : MajorResult) : OwnershipSummary :=
  match m with
  | MajorResult.raise => allNoneSummary
  | MajorResult.ret Option.none => allNoneSummary
  | MajorResult.ret (some rows) =>
    if rows = [] then allNoneSummary
    else
      match pct_to_float (dget rows "Insiders (%)") with
      | Option.none => allNoneSummary
      | some insider_pct =>
        match pct_to_float (dget rows "Institutions") with
        | Option.none => allNoneSummary
        | some inst_pct =>
          let float_pct : Option Fr :=
            match inst_pct with
            | Option.none => Option.none
            | some ip =>
              match insider_pct with
              | Option.none => some (Fr.subF (Fr.ofInt 100) ip)
              | some sp => some (Fr.subF (Fr.subF (Fr.ofInt 100) ip) sp)
          ⟨insider_pct, inst_pct, float_pct⟩

/-- Python dict assignment `d[k] = v`: replace the value in place if the
key exists, otherwise append the new pair. -/
def dsetV (d : List (String × Val)) (k : String) (v : Val) : List (String × Val) :=
  if d.any (fun p => p.1 = k) then d.map (fun p => if p.1 = k then (p.1, v) else p)
  else d ++ [(k, v)]

/-- A summary field injected into the raw record (`None` stays `None`). -/
def ownVal : Option Fr → Val
  | Option.none => Val.vnone
  | some f => Val.vnum f

/-- One iteration of the driver loop, as a function of the full-info
lookup outcome (`none` models the lookup raising): on success the ticker
symbol is stored under `_ticker` and the three ownership fields are
merged in; on failure the row degrades to the ticker symbol alone. -/
def build_row (t : String) (infoRes : Option (List (String × Val)))
    (own : OwnershipSummary) : List (String × Val) :=
  match infoRes with
  | Option.none => [("_ticker", Val.vstr t)]
  | some info =>
    dsetV (dsetV (dsetV (dsetV info "_ticker" (Val.vstr t))
      "Insider (%)" (ownVal own.insider))
      "Institutional (%)" (ownVal own.institutional))
      "Float / Retail (%)" (ownVal own.floatRetail)

/-- The driver's fetch pass: one raw record per input ticker, in input
order, with the two remote lookups abstracted as functions of the
ticker. -/
def fetch_rows (tickers : List String)
    (infoLookup : String → Option (List (String × Val)))
    (majorLookup : String → MajorResult) : List (List (String × Val)) :=
  tickers.map (fun t =>
    build_row t (infoLookup t) (parse_major_holders (majorLookup t)))

/-- The renaming table of `clean_info`: output column name to source
field name, in the published order. -/
def fieldsTable : List (String × String) :=
  [("Ticker", "_ticker"),
   ("Name", "shortName"),
   ("Sector", "sector"),
   ("Industry", "industry"),
   ("Current Price", "currentPrice"),
   ("52W High", "fiftyTwoWeekHigh"),
   ("52W Low", "fiftyTwoWeekLow"),
   ("Market Cap", "marketCap"),
   ("P/E (Trailing)", "trailingPE"),
   ("P/E (Forward)", "forwardPE"),
   ("Beta", "beta"),
   ("Dividend Yield", "dividendYield"),
   ("Price to Book", "priceToBook"),
   ("EPS", "trailingEps"),
   ("Revenue", "totalRevenue"),
   ("Gross Margins", "grossMargins"),
   ("Profit Margins", "profitMargins"),
   ("Insider (%)", "Insider (%)"),
   ("Institutional (%)", "Institutional (%)"),
   ("Float / Retail (%)", "Float / Retail (%)")]

/-- The 19 published column names in their fixed order. -/
def cleanedColumns : List String :=
  ["Ticker", "Name", "Sector", "Industry", "Current Price", "52W High",
   "52W Low", "Market Cap", "P/E (Trailing)", "P/E (Forward)", "Beta",
   "Dividend Yield", "Price to Book", "EPS", "Revenue", "Gross Margins",
   "Profit Margins", "Insider (%)", "Institutional (%)",
   "Float / Retail (%)"]

/-- Whether the raw DataFrame has a column: some record carries the key
(`raw_key in raw_df.columns`). -/
def hasColumn (rows : List (List (String × Val))) (k : String) : Bool :=
  rows.any (fun r => r.any (fun p => p.1 = k))

/-- The cell `raw_df[raw_key]` holds for record `r`: the record's own
value when present; pandas' missing marker NaN when the column exists
but this record lacks the key; `None` when no record has the key (the
`else None` branch of `clean_info`). -/
def cellValue (rows : List (List (String × Val))) (r : List (String × Val))
    (key : String) : Val :=
  if hasColumn rows key then (dget r key).getD Val.vnan else Val.vnone

/-- The projection loop of `clean_info`: each output column copies its
source cell under the renaming table. -/
def project_record (rows : List (List (String × Val)))
    (r : List (String × Val)) : List (String × Val) :=
  fieldsTable.map (fun p => (p.1, cellValue rows r p.2))

/-- `df[c] = df[c].apply(f)`: rewrite one column, all others untouched. -/
def applyToCol (d : List (String × Val)) (c : String) (f : Val → Val) :
    List (String × Val) :=
  d.map (fun p => if p.1 = c then (p.1, f p.2) else p)

/-- One cleaned record: project, then apply `format_number` to Market
Cap and Revenue and `format_percent` to Dividend Yield, Gross Margins
and Profit Margins, in the source's assignment order. -/
def clean_record (rows : List (List (String × Val)))
    (r : List (String × Val)) : List (String × Val) :=
  applyToCol (applyToCol (applyToCol (applyToCol (applyToCol
    (project_record rows r)
    "Market Cap" format_number)
    "Revenue" format_number)
    "Dividend Yield" format_percent)
    "Gross Margins" format_percent)
    "Profit Margins" format_percent

/-- `clean_info`: the cleaned projection of every raw record (column
presence is judged against the whole frame, as pandas does). -/
def clean_info (rows : List (List (String × Val))) :
    List (List (String × Val)) :=
  rows.map (clean_record rows)

/-- What the driver hands to the writers: the raw records (Raw_Info
sheet and the CSV) untouched, and the cleaned projection
(Cleaned_Info). -/
def pipeline_outputs (tickers : List String)
    (infoLookup : String → Option (List (String × Val)))
    (majorLookup : String → MajorResult) :
    List (List (String × Val)) × List (List (String × Val)) :=
  let raw := fetch_rows tickers infoLookup majorLookup
  (raw, clean_info raw)

/-- The conversion step as claim C5 words it: strip one trailing percent
sign only (for comparison with the source's `str.strip('%')`, which
strips both ends). -/
def stripTrailingOnly (s : String) : String :=
  match s.toList.reverse with
  | '%' :: t => String.mk t.reverse
  | _ => s

/-! ## Helper lemmas -/

theorem dget_nil {α : Type} (k : String) : dget ([] : List (String × α)) k = Option.none := rfl

theorem dget_cons {α : Type} (p : String × α) (t : List (String × α)) (k : String) :
    dget (p :: t) k =
      match dget t k with
      | some v => some v
      | Option.none => if p.1 = k then some p.2 else Option.none := rfl

theorem dget_append {α : Type} (a b : List (String × α)) (k : String) :
    dget (a ++ b) k =
      match dget b k with
      | some v => some v
      | Option.none => dget a k := by
  induction a with
  | nil => cases h : dget b k <;> simp [dget_nil, h]
  | cons p t ih =>
    rw [List.cons_append, dget_cons, ih, dget_cons]
    cases h : dget b k <;> cases h2 : dget t k <;> simp


theorem dget_applyToCol (d : List (String × Val)) (c k : String) (f : Val → Val) :
    dget (applyToCol d c f) k =
      if k = c then (dget d k).map f else dget d k := by
  induction d with
  | nil => simp [applyToCol, dget_nil]
  | cons p t ih =>
    simp only [applyToCol, List.map_cons] at ih ⊢
    rw [dget_cons, ih, dget_cons]
    by_cases hkc : k = c
    · rw [if_pos hkc, if_pos hkc]
      by_cases hpc : p.1 = c
      · rw [if_pos hpc]
        have hpk : p.1 = k := by rw [hpc, hkc]
        cases h : dget t k <;> simp [hpk]
      · rw [if_neg hpc]
        have hpk : ¬ p.1 = k := by rw [hkc]; exact hpc
        cases h : dget t k <;> simp [hpk]
    · rw [if_neg hkc, if_neg hkc]
      by_cases hpc : p.1 = c
      · rw [if_pos hpc]
        have hpk : ¬ p.1 = k := by
          intro h2
          exact hkc (by rw [← h2, hpc])
        cases h : dget t k <;> simp [hpk]
      · rw [if_neg hpc]

theorem map_fst_applyToCol (d : List (String × Val)) (c : String) (f : Val → Val) :
    (applyToCol d c f).map Prod.fst = d.map Prod.fst := by
  induction d with
  | nil => rfl
  | cons p t ih =>
    simp only [applyToCol, List.map_cons] at ih ⊢
    by_cases hp : p.1 = c <;> simp [hp, ih]

theorem dget_map_pairs {β : Type} (l : List (String × β)) (g : β → Val) (k : String) :
    dget (l.map (fun p => (p.1, g p.2))) k = (dget l k).map g := by
  induction l with
  | nil => rfl
  | cons p t ih =>
    simp only [List.map_cons]
    rw [dget_cons, ih, dget_cons]
    cases h : dget t k
    · by_cases hp : p.1 = k <;> simp [hp]
    · simp

theorem dget_project (rows : List (List (String × Val))) (r : List (String × Val))
    (k : String) :
    dget (project_record rows r) k = (dget fieldsTable k).map (cellValue rows r) :=
  dget_map_pairs fieldsTable (cellValue rows r) k

theorem dget_fieldsTable {col key : String} (h : (col, key) ∈ fieldsTable) :
    dget fieldsTable col = some key := by
  fin_cases h <;> decide

theorem dget_map_set (d : List (String × Val)) (k : String) (v : Val) :
    dget (d.map (fun p => if p.1 = k then (p.1, v) else p)) k =
      if d.any (fun p => p.1 = k) then some v else Option.none := by
  induction d with
  | nil => simp [dget_nil]
  | cons p t ih =>
    simp only [List.map_cons]
    rw [dget_cons, ih]
    by_cases hta : t.any (fun p => p.1 = k)
    · rw [if_pos hta]
      have : (p :: t).any (fun p => p.1 = k) := by
        simp only [List.any_cons, Bool.or_eq_true]
        right
        exact hta
      simp [this]
    · rw [if_neg hta]
      by_cases hp : p.1 = k
      · rw [if_pos hp]
        have : (p :: t).any (fun p => p.1 = k) := by
          simp only [List.any_cons, Bool.or_eq_true]
          left
          simpa using hp
        simp [this, hp]
      · rw [if_neg hp]
        have : ¬ (p :: t).any (fun p => p.1 = k) = true := by
          simp only [List.any_cons, Bool.or_eq_true]
          rintro (h1 | h1)
          · exact hp (by simpa using h1)
          · exact hta h1
        simp [this, hp]

theorem dget_map_keep (d : List (String × Val)) (c k : String) (v : Val)
    (hne : k ≠ c) :
    dget (d.map (fun p => if p.1 = c then (p.1, v) else p)) k = dget d k := by
  induction d with
  | nil => rfl
  | cons p t ih =>
    simp only [List.map_cons]
    rw [dget_cons, ih, dget_cons]
    by_cases hpc : p.1 = c
    · rw [if_pos hpc]
      have hpk : ¬ p.1 = k := by
        intro h2
        exact hne (by rw [← h2, hpc])
      cases h : dget t k <;> simp [hpk]
    · rw [if_neg hpc]

theorem dget_dsetV_same (d : List (String × Val)) (k : String) (v : Val) :
    dget (dsetV d k v) k = some v := by
  unfold dsetV
  by_cases ha : d.any (fun p => p.1 = k)
  · rw [if_pos ha, dget_map_set, if_pos ha]
  · rw [if_neg ha, dget_append]
    simp [dget_cons, dget_nil]

theorem dget_dsetV_other (d : List (String × Val)) (c k : String) (v : Val)
    (hne : k ≠ c) : dget (dsetV d c v) k = dget d k := by
  unfold dsetV
  by_cases ha : d.any (fun p => p.1 = c)
  · rw [if_pos ha]
    exact dget_map_keep d c k v hne
  · rw [if_neg ha, dget_append]
    have hck : ¬ c = k := fun h2 => hne h2.symm
    simp [dget_cons, dget_nil, hck]

theorem get?_map_pairs {α β : Type} (f : α → β) (l : List α) (i : Nat) :
    (l.map f).get? i = (l.get? i).map f := by
  induction l generalizing i with
  | nil => cases i <;> rfl
  | cons a t ih => cases i with
    | zero => rfl
    | succ n => exact ih n

/-! ## Claim theorems -/

/-- Claim C1: for every ownership resolution the Float/Retail percentage
is None when the Institutional percentage is None, otherwise 100 minus
Institutional when the Insider percentage is None, otherwise 100 minus
Institutional minus Insider; and on the two quoted tables the resolver
yields Insider=5.0, Institutional=70.0, Float/Retail=25.0, resp.
Insider=None, Institutional=60.0, Float/Retail=40.0. -/
theorem c1_float_retail_derivation :
    (∀ m : MajorResult,
      (parse_major_holders m).floatRetail =
        match (parse_major_holders m).institutional,
              (parse_major_holders m).insider with
        | Option.none, _ => Option.none
        | some ip, Option.none => some (Fr.subF (Fr.ofInt 100) ip)
        | some ip, some sp => some (Fr.subF (Fr.subF (Fr.ofInt 100) ip) sp))
    ∧ ((parse_major_holders (MajorResult.ret (some
          [("Insiders (%)", "5.00%"), ("Institutions", "70.00%")]))).insider.map Fr.val
          = some 5
      ∧ (parse_major_holders (MajorResult.ret (some
          [("Insiders (%)", "5.00%"), ("Institutions", "70.00%")]))).institutional.map Fr.val
          = some 70
      ∧ (parse_major_holders (MajorResult.ret (some
          [("Insiders (%)", "5.00%"), ("Institutions", "70.00%")]))).floatRetail.map Fr.val
          = some 25)
    ∧ ((parse_major_holders (MajorResult.ret (some
          [("Institutions", "60.00%")]))).insider = Option.none
      ∧ (parse_major_holders (MajorResult.ret (some
          [("Institutions", "60.00%")]))).institutional.map Fr.val = some 60
      ∧ (parse_major_holders (MajorResult.ret (some
          [("Institutions", "60.00%")]))).floatRetail.map Fr.val = some 40) := by
  have e1 : parse_major_holders (MajorResult.ret (some
      [("Insiders (%)", "5.00%"), ("Institutions", "70.00%")]))
      = ⟨some ⟨500, 100⟩, some ⟨7000, 100⟩, some ⟨250000, 10000⟩⟩ := by decide
  have e2 : parse_major_holders (MajorResult.ret (some [("Institutions", "60.00%")]))
      = ⟨Option.none, some ⟨6000, 100⟩, some ⟨4000, 100⟩⟩ := by decide
  refine ⟨?_, ⟨?_, ?_, ?_⟩, ⟨?_, ?_, ?_⟩⟩
  · intro m
    cases m with
    | raise => rfl
    | ret ot =>
      cases ot with
      | none => rfl
      | some rows =>
        simp only [parse_major_holders]
        by_cases hr : rows = []
        · rw [if_pos hr]
          rfl
        · rw [if_neg hr]
          cases h1 : pct_to_float (dget rows "Insiders (%)") with
          | none => rfl
          | some ip =>
            cases h2 : pct_to_float (dget rows "Institutions") with
            | none => rfl
            | some jp =>
              cases jp with
              | none => cases ip <;> rfl
              | some j => cases ip <;> rfl
  · rw [e1]
    simp only [Option.map_some']
    norm_num [Fr.val]
  · rw [e1]
    simp only [Option.map_some']
    norm_num [Fr.val]
  · rw [e1]
    simp only [Option.map_some']
    norm_num [Fr.val]
  · rw [e2]
  · rw [e2]
    simp only [Option.map_some']
    norm_num [Fr.val]
  · rw [e2]
    simp only [Option.map_some']
    norm_num [Fr.val]

/-- Claim C2: format_number maps None to None, returns non-convertible
input unchanged, treats a convertible string like the number it denotes,
and for every finite value selects the scale by comparing abs(value)
against the fixed thresholds largest first, each branch rendering two
decimals; with the four quoted examples. -/
theorem c2_format_number_spec :
    format_number Val.vnone = Val.vnone
    ∧ (∀ s : String, pyFloatOfString s = Option.none →
        format_number (Val.vstr s) = Val.vstr s)
    ∧ (∀ s : String, ∀ f : Fr, pyFloatOfString s = some f →
        format_number (Val.vstr s) = format_number (Val.vnum f))
    ∧ (∀ f : Fr, Fr.leF (Fr.ofInt 1000000000000) (Fr.absF f) = true →
        format_number (Val.vnum f) = Val.vstr (fmt2 (Fr.divPow10 f 12) ++ " T"))
    ∧ (∀ f : Fr, Fr.leF (Fr.ofInt 1000000000000) (Fr.absF f) = false →
        Fr.leF (Fr.ofInt 1000000000) (Fr.absF f) = true →
        format_number (Val.vnum f) = Val.vstr (fmt2 (Fr.divPow10 f 9) ++ " B"))
    ∧ (∀ f : Fr, Fr.leF (Fr.ofInt 1000000000000) (Fr.absF f) = false →
        Fr.leF (Fr.ofInt 1000000000) (Fr.absF f) = false →
        Fr.leF (Fr.ofInt 1000000) (Fr.absF f) = true →
        format_number (Val.vnum f) = Val.vstr (fmt2 (Fr.divPow10 f 6) ++ " M"))
    ∧ (∀ f : Fr, Fr.leF (Fr.ofInt 1000000000000) (Fr.absF f) = false →
        Fr.leF (Fr.ofInt 1000000000) (Fr.absF f) = false →
        Fr.leF (Fr.ofInt 1000000) (Fr.absF f) = false →
        format_number (Val.vnum f) = Val.vstr (fmt2 f))
    ∧ format_number (Val.vnum (Fr.ofInt 1500000000)) = Val.vstr "1.50 B"
    ∧ format_number (Val.vnum (Fr.ofInt 999)) = Val.vstr "999.00"
    ∧ format_number (Val.vnum (Fr.ofInt 2000000000000)) = Val.vstr "2.00 T"
    ∧ format_number (Val.vstr "n/a") = Val.vstr "n/a" := by
  refine ⟨rfl, ?_, ?_, ?_, ?_, ?_, ?_, by decide, by decide, by decide, by decide⟩
  · intro s h
    simp [format_number, h]
  · intro s f h
    simp [format_number, h]
  · intro f h
    simp [format_number, scaleNumber, h]
  · intro f h1 h2
    simp [format_number, scaleNumber, h1, h2]
  · intro f h1 h2 h3
    simp [format_number, scaleNumber, h1, h2, h3]
  · intro f h1 h2 h3
    simp [format_number, scaleNumber, h1, h2, h3]

/-- Witness for C2: the pass-through conjunct applied at "n/a" and the
terascale conjunct applied at 2e12. -/
theorem c2_format_number_spec_witness :
    (pyFloatOfString "n/a" = Option.none
      ∧ format_number (Val.vstr "n/a") = Val.vstr "n/a")
    ∧ (Fr.leF (Fr.ofInt 1000000000000) (Fr.absF (Fr.ofInt 2000000000000)) = true
      ∧ format_number (Val.vnum (Fr.ofInt 2000000000000))
          = Val.vstr (fmt2 (Fr.divPow10 (Fr.ofInt 2000000000000) 12) ++ " T")) :=
  ⟨⟨by decide, c2_format_number_spec.2.1 "n/a" (by decide)⟩,
   ⟨by decide, c2_format_number_spec.2.2.2.1 (Fr.ofInt 2000000000000) (by decide)⟩⟩

/-- Claim C3 as stated is false: the string "5.32" is convertible and its
numeric value exceeds 1, yet format_percent returns it unchanged rather
than rendering "5.32%", because the `> 1` comparison precedes the
conversion and raises TypeError on a string. -/
theorem c3_counterexample :
    pyFloatOfString "5.32" = some ⟨532, 100⟩
    ∧ Fr.ltF (Fr.ofInt 1) ⟨532, 100⟩ = true
    ∧ format_percent (Val.vstr "5.32") = Val.vstr "5.32"
    ∧ format_percent (Val.vstr "5.32") ≠ Val.vstr "5.32%" := by decide

/-- Claim C3 amended: format_percent maps None to None; a finite numeric
value above 1 renders with 2 decimals plus "%", any other finite numeric
value is multiplied by 100 first; and every string input — convertible or
not — is returned unchanged, since the comparison with 1 precedes the
conversion and fails on a string. -/
theorem c3_format_percent_amended :
    format_percent Val.vnone = Val.vnone
    ∧ (∀ f : Fr, Fr.ltF (Fr.ofInt 1) f = true →
        format_percent (Val.vnum f) = Val.vstr (fmt2 f ++ "%"))
    ∧ (∀ f : Fr, Fr.ltF (Fr.ofInt 1) f = false →
        format_percent (Val.vnum f) = Val.vstr (fmt2 (Fr.mulF f (Fr.ofInt 100)) ++ "%"))
    ∧ (∀ s : String, format_percent (Val.vstr s) = Val.vstr s)
    ∧ format_percent (Val.vnum ⟨532, 100⟩) = Val.vstr "5.32%"
    ∧ format_percent (Val.vnum ⟨532, 10000⟩) = Val.vstr "5.32%" := by
  refine ⟨rfl, ?_, ?_, fun s => rfl, by decide, by decide⟩
  · intro f h
    simp [format_percent, h]
  · intro f h
    simp [format_percent, h]

/-- Witness for the amended C3: the above-1 branch applied at 5.32. -/
theorem c3_format_percent_amended_witness :
    Fr.ltF (Fr.ofInt 1) ⟨532, 100⟩ = true
    ∧ format_percent (Val.vnum ⟨532, 100⟩) = Val.vstr (fmt2 ⟨532, 100⟩ ++ "%") :=
  ⟨by decide, c3_format_percent_amended.2.1 ⟨532, 100⟩ (by decide)⟩

/-- Claim C4 as stated is false: format_percent at exactly 1.0 takes the
multiply-by-100 branch (the comparison `p > 1` is strict), producing
"100.00%" rather than the claimed "1.00%". -/
theorem c4_counterexample :
    format_percent (Val.vnum (Fr.ofInt 1)) = Val.vstr "100.00%"
    ∧ format_percent (Val.vnum (Fr.ofInt 1)) ≠ Val.vstr "1.00%" := by decide

/-- Claim C4 amended: format_percent applied to the exact value 1.0
treats it as a fraction (the strict comparison `1 > 1` fails) and
returns "100.00%". -/
theorem c4_percent_of_one :
    format_percent (Val.vnum (Fr.ofInt 1)) = Val.vstr "100.00%" := by decide

/-- Claim C5's conversion description is false on the code: the code uses
str.strip, which removes '%' from both ends, so the found value "%60.00"
parses to 60.0 and the resolver returns Institutional=60.0,
Float/Retail=40.0 — whereas stripping only a trailing '%' leaves
"%60.00", which float() rejects, so under the claim this resolution
would raise and degrade to the all-None summary. -/
theorem c5_counterexample :
    parse_major_holders (MajorResult.ret (some [("Institutions", "%60.00")]))
      = ⟨Option.none, some ⟨6000, 100⟩, some ⟨4000, 100⟩⟩
    ∧ parse_major_holders (MajorResult.ret (some [("Institutions", "%60.00")]))
      ≠ allNoneSummary
    ∧ pyFloatOfString (stripTrailingOnly "%60.00") = Option.none
    ∧ pyFloatOfString (pyStripChar "%60.00" '%') = some ⟨6000, 100⟩ := by decide

/-- Claim C5 amended: an absent table or one with no rows yields the
all-None summary; a missing label yields None for its field; and every
found value is converted by stripping all leading and trailing '%'
characters (Python str.strip) and parsing the remainder as a float. -/
theorem c5_resolver_amended :
    parse_major_holders (MajorResult.ret Option.none) = allNoneSummary
    ∧ parse_major_holders (MajorResult.ret (some [])) = allNoneSummary
    ∧ (∀ rows, dget rows "Insiders (%)" = Option.none →
        (parse_major_holders (MajorResult.ret (some rows))).insider = Option.none)
    ∧ (∀ rows, dget rows "Institutions" = Option.none →
        (parse_major_holders (MajorResult.ret (some rows))).institutional = Option.none)
    ∧ (∀ rows (s : String) (f : Fr), dget rows "Insiders (%)" = some s →
        pyFloatOfString (pyStripChar s '%') = some f →
        pct_to_float (dget rows "Institutions") ≠ Option.none →
        (parse_major_holders (MajorResult.ret (some rows))).insider = some f)
    ∧ (∀ rows (s : String) (f : Fr), dget rows "Institutions" = some s →
        pyFloatOfString (pyStripChar s '%') = some f →
        pct_to_float (dget rows "Insiders (%)") ≠ Option.none →
        (parse_major_holders (MajorResult.ret (some rows))).institutional = some f) := by
  refine ⟨rfl, by decide, ?_, ?_, ?_, ?_⟩
  · intro rows h
    simp only [parse_major_holders]
    by_cases hr : rows = []
    · rw [if_pos hr]
      rfl
    · rw [if_neg hr, h]
      cases h2 : pct_to_float (dget rows "Institutions") with
      | none => rfl
      | some jp => cases jp <;> rfl
  · intro rows h
    simp only [parse_major_holders]
    by_cases hr : rows = []
    · rw [if_pos hr]
      rfl
    · rw [if_neg hr]
      cases h1 : pct_to_float (dget rows "Insiders (%)") with
      | none => rfl
      | some ip =>
        rw [h]
        rfl
  · intro rows s f h hparse hinst
    have hr : rows ≠ [] := by
      intro he
      rw [he] at h
      simp [dget_nil] at h
    simp only [parse_major_holders]
    rw [if_neg hr, h]
    have hpct : pct_to_float (some s) = some (some f) := by
      simp [pct_to_float, hparse]
    rw [hpct]
    cases h2 : pct_to_float (dget rows "Institutions") with
    | none => exact absurd h2 hinst
    | some jp => cases jp <;> rfl
  · intro rows s f h hparse hins
    have hr : rows ≠ [] := by
      intro he
      rw [he] at h
      simp [dget_nil] at h
    simp only [parse_major_holders]
    rw [if_neg hr]
    cases h1 : pct_to_float (dget rows "Insiders (%)") with
    | none => exact absurd h1 hins
    | some ip =>
      rw [h]
      have hpct : pct_to_float (some s) = some (some f) := by
        simp [pct_to_float, hparse]
      rw [hpct]

/-- Witness for the amended C5: the found-value conversion applied to
the quoted two-row table. -/
theorem c5_resolver_amended_witness :
    dget [("Insiders (%)", "5.00%"), ("Institutions", "70.00%")] "Insiders (%)"
      = some "5.00%"
    ∧ pyFloatOfString (pyStripChar "5.00%" '%') = some ⟨500, 100⟩
    ∧ pct_to_float (dget [("Insiders (%)", "5.00%"), ("Institutions", "70.00%")]
        "Institutions") ≠ Option.none
    ∧ (parse_major_holders (MajorResult.ret (some
        [("Insiders (%)", "5.00%"), ("Institutions", "70.00%")]))).insider
      = some ⟨500, 100⟩ :=
  ⟨by decide, by decide, by decide,
   c5_resolver_amended.2.2.2.2.1 _ "5.00%" ⟨500, 100⟩ (by decide) (by decide)
     (by decide)⟩

/-- Claim C6: a raising lookup degrades to the all-None summary, and a
percent-string parse failure on either label does too — discarding any
other value that did parse; the resolver is a total function, so no
failure reaches the caller. -/
theorem c6_resolver_error_containment :
    parse_major_holders MajorResult.raise = allNoneSummary
    ∧ (∀ rows, pct_to_float (dget rows "Insiders (%)") = Option.none →
        parse_major_holders (MajorResult.ret (some rows)) = allNoneSummary)
    ∧ (∀ rows, pct_to_float (dget rows "Institutions") = Option.none →
        parse_major_holders (MajorResult.ret (some rows)) = allNoneSummary) := by
  refine ⟨rfl, ?_, ?_⟩
  · intro rows h
    simp only [parse_major_holders]
    by_cases hr : rows = []
    · rw [if_pos hr]
    · rw [if_neg hr, h]
  · intro rows h
    simp only [parse_major_holders]
    by_cases hr : rows = []
    · rw [if_pos hr]
    · rw [if_neg hr]
      cases h1 : pct_to_float (dget rows "Insiders (%)") with
      | none => rfl
      | some ip =>
        rw [h]

/-- Witness for C6: an insider value that fails to parse discards the
parseable institutional value as well. -/
theorem c6_resolver_error_containment_witness :
    pct_to_float (dget [("Insiders (%)", "bad"), ("Institutions", "60.00%")]
      "Insiders (%)") = Option.none
    ∧ pct_to_float (dget [("Insiders (%)", "bad"), ("Institutions", "60.00%")]
      "Institutions") = some (some ⟨6000, 100⟩)
    ∧ parse_major_holders (MajorResult.ret (some
        [("Insiders (%)", "bad"), ("Institutions", "60.00%")])) = allNoneSummary :=
  ⟨by decide, by decide, c6_resolver_error_containment.2.1 _ (by decide)⟩

/-- Claim C7: the fetch pass yields exactly one raw record per input
ticker, in input order (entry i is built from ticker i), even when every
remote lookup fails; a failed full-info lookup degrades that ticker's
row to the ticker symbol alone, and every row carries its ticker
symbol under the `_ticker` key. -/
theorem c7_driver_rows :
    (∀ (tickers : List String) infoLookup majorLookup,
      (fetch_rows tickers infoLookup majorLookup).length = tickers.length)
    ∧ (∀ (tickers : List String) infoLookup majorLookup (i : Nat),
      (fetch_rows tickers infoLookup majorLookup).get? i =
        (tickers.get? i).map (fun t =>
          build_row t (infoLookup t) (parse_major_holders (majorLookup t))))
    ∧ (∀ (t : String) (own : OwnershipSummary),
        build_row t Option.none own = [("_ticker", Val.vstr t)])
    ∧ (∀ (t : String) infoRes (own : OwnershipSummary),
        dget (build_row t infoRes own) "_ticker" = some (Val.vstr t))
    ∧ (∀ (tickers : List String) majorLookup,
        fetch_rows tickers (fun _ => Option.none) majorLookup
          = tickers.map (fun t => [("_ticker", Val.vstr t)])) := by
  refine ⟨?_, ?_, ?_, ?_, ?_⟩
  · intro tickers infoLookup majorLookup
    simp [fetch_rows]
  · intro tickers infoLookup majorLookup i
    exact get?_map_pairs _ tickers i
  · intro t own
    rfl
  · intro t infoRes own
    cases infoRes with
    | none => simp [build_row, dget_cons, dget_nil]
    | some info =>
      show dget (dsetV (dsetV (dsetV (dsetV info "_ticker" (Val.vstr t))
          "Insider (%)" (ownVal own.insider))
          "Institutional (%)" (ownVal own.institutional))
          "Float / Retail (%)" (ownVal own.floatRetail)) "_ticker"
        = some (Val.vstr t)
      rw [dget_dsetV_other _ _ _ _ (by decide), dget_dsetV_other _ _ _ _ (by decide),
        dget_dsetV_other _ _ _ _ (by decide), dget_dsetV_same]
  · intro tickers majorLookup
    rfl

/-- Claim C8's absent-field clause is false on the code: when another
record carries the field, pandas fills this record's missing cell with
NaN, and a formatted column renders that as the string "nan"
(resp. "nan%") in the cleaned view, not as None. -/
theorem c8_counterexample :
    dget (clean_record [[("marketCap", Val.vnum ⟨5, 1⟩)], []] []) "Market Cap"
      = some (Val.vstr "nan")
    ∧ dget (clean_record [[("grossMargins", Val.vnum ⟨5, 1⟩)], []] []) "Gross Margins"
      = some (Val.vstr "nan%")
    ∧ dget (clean_record [[("marketCap", Val.vnum ⟨5, 1⟩)], []] []) "Market Cap"
      ≠ some Val.vnone := by decide

/-- Claim C8 amended: every cleaned record has exactly the 19 published
column names in their fixed order, whatever fields the raw record has;
a source field absent from every record projects to None, while a field
absent from this record but present in another projects to the pandas
missing marker (NaN), which the five formatted columns render as
"nan"/"nan%". -/
theorem c8_cleaned_columns_amended :
    (∀ rows r, (clean_record rows r).map Prod.fst = cleanedColumns)
    ∧ (∀ rows, ∀ cr ∈ clean_info rows, cr.map Prod.fst = cleanedColumns)
    ∧ (∀ rows r col key, (col, key) ∈ fieldsTable →
        hasColumn rows key = false →
        dget (clean_record rows r) col = some Val.vnone) := by
  have h1 : ∀ rows r, (clean_record rows r).map Prod.fst = cleanedColumns := by
    intro rows r
    unfold clean_record
    rw [map_fst_applyToCol, map_fst_applyToCol, map_fst_applyToCol,
      map_fst_applyToCol, map_fst_applyToCol]
    unfold project_record
    rw [List.map_map]
    rfl
  refine ⟨h1, ?_, ?_⟩
  · intro rows cr hcr
    simp only [clean_info, List.mem_map] at hcr
    obtain ⟨r, hr, rfl⟩ := hcr
    exact h1 rows r
  · intro rows r col key hmem hcol
    have hkey : dget fieldsTable col = some key := dget_fieldsTable hmem
    unfold clean_record
    rw [dget_applyToCol, dget_applyToCol, dget_applyToCol, dget_applyToCol,
      dget_applyToCol, dget_project, hkey]
    have hcell : cellValue rows r key = Val.vnone := by
      simp [cellValue, hcol]
    simp [hcell, format_number, format_percent]

/-- Witness for the amended C8: the Name column of a record in a frame
where no record carries `shortName` is None. -/
theorem c8_cleaned_columns_amended_witness :
    ("Name", "shortName") ∈ fieldsTable
    ∧ hasColumn [[("_ticker", Val.vstr "A")]] "shortName" = false
    ∧ dget (clean_record [[("_ticker", Val.vstr "A")]] [("_ticker", Val.vstr "A")])
        "Name" = some Val.vnone :=
  ⟨by decide, by decide,
   c8_cleaned_columns_amended.2.2 _ _ "Name" "shortName" (by decide) (by decide)⟩

/-- Claim C9: exactly Market Cap and Revenue are transformed by
format_number, exactly Dividend Yield, Gross Margins and Profit Margins
by format_percent, every other projected column carries its source cell
through unchanged, and the raw output handed to the Raw_Info sheet and
the CSV is the unformatted fetch result itself. -/
theorem c9_formatting_columns :
    (∀ rows r,
      dget (clean_record rows r) "Market Cap"
        = some (format_number (cellValue rows r "marketCap"))
      ∧ dget (clean_record rows r) "Revenue"
        = some (format_number (cellValue rows r "totalRevenue"))
      ∧ dget (clean_record rows r) "Dividend Yield"
        = some (format_percent (cellValue rows r "dividendYield"))
      ∧ dget (clean_record rows r) "Gross Margins"
        = some (format_percent (cellValue rows r "grossMargins"))
      ∧ dget (clean_record rows r) "Profit Margins"
        = some (format_percent (cellValue rows r "profitMargins")))
    ∧ (∀ rows r col key, (col, key) ∈ fieldsTable →
        col ∉ (["Market Cap", "Revenue", "Dividend Yield", "Gross Margins",
                "Profit Margins"] : List String) →
        dget (clean_record rows r) col = some (cellValue rows r key))
    ∧ (∀ tickers infoLookup majorLookup,
        (pipeline_outputs tickers infoLookup majorLookup).1
          = fetch_rows tickers infoLookup majorLookup) := by
  refine ⟨?_, ?_, ?_⟩
  · intro rows r
    refine ⟨?_, ?_, ?_, ?_, ?_⟩ <;>
      · unfold clean_record
        rw [dget_applyToCol, dget_applyToCol, dget_applyToCol, dget_applyToCol,
          dget_applyToCol, dget_project]
        simp [show dget fieldsTable "Market Cap" = some "marketCap" from by decide,
          show dget fieldsTable "Revenue" = some "totalRevenue" from by decide,
          show dget fieldsTable "Dividend Yield" = some "dividendYield" from by decide,
          show dget fieldsTable "Gross Margins" = some "grossMargins" from by decide,
          show dget fieldsTable "Profit Margins" = some "profitMargins" from by decide]
  · intro rows r col key hmem hnot
    have hkey : dget fieldsTable col = some key := dget_fieldsTable hmem
    simp only [List.mem_cons, List.not_mem_nil, or_false, not_or] at hnot
    obtain ⟨hn1, hn2, hn3, hn4, hn5⟩ := hnot
    unfold clean_record
    rw [dget_applyToCol, dget_applyToCol, dget_applyToCol, dget_applyToCol,
      dget_applyToCol, dget_project, hkey]
    simp [hn1, hn2, hn3, hn4, hn5]
  · intro tickers infoLookup majorLookup
    rfl

/-- Witness for C9: the Ticker column of a one-record frame passes the
`_ticker` cell through unformatted. -/
theorem c9_formatting_columns_witness :
    ("Ticker", "_ticker") ∈ fieldsTable
    ∧ ("Ticker" : String) ∉ (["Market Cap", "Revenue", "Dividend Yield",
        "Gross Margins", "Profit Margins"] : List String)
    ∧ dget (clean_record [[("_ticker", Val.vstr "A")]] [("_ticker", Val.vstr "A")])
        "Ticker"
      = some (cellValue [[("_ticker", Val.vstr "A")]] [("_ticker", Val.vstr "A")]
          "_ticker") :=
  ⟨by decide, by decide,
   c9_formatting_columns.2.1 _ _ "Ticker" "_ticker" (by decide) (by decide)⟩

/-- Claim C10: format_percent selects the already-a-percentage branch by
the signed comparison `p > 1`, not by magnitude, so every negative value
is multiplied by 100; -5.32 renders as "-532.00%", not "-5.32%". -/
theorem c10_negative_percent :
    (∀ f : Fr, Fr.ltF f (Fr.ofInt 0) = true →
      Fr.ltF (Fr.ofInt 1) f = false
      ∧ format_percent (Val.vnum f)
        = Val.vstr (fmt2 (Fr.mulF f (Fr.ofInt 100)) ++ "%"))
    ∧ format_percent (Val.vnum ⟨-532, 100⟩) = Val.vstr "-532.00%"
    ∧ format_percent (Val.vnum ⟨-532, 100⟩) ≠ Val.vstr "-5.32%" := by
  refine ⟨?_, by decide, by decide⟩
  intro f h
  have h3 : f.num < 0 := by
    simp only [Fr.ltF, Fr.ofInt, decide_eq_true_eq] at h
    simpa using h
  have hlt : Fr.ltF (Fr.ofInt 1) f = false := by
    simp only [Fr.ltF, Fr.ofInt, decide_eq_false_iff_not, one_mul, mul_one, not_lt]
    have hden : (0 : Int) ≤ (f.den : Int) := Int.natCast_nonneg f.den
    omega
  refine ⟨hlt, ?_⟩
  simp [format_percent, hlt]

/-- Witness for C10 at -5.32. -/
theorem c10_negative_percent_witness :
    Fr.ltF ⟨-532, 100⟩ (Fr.ofInt 0) = true
    ∧ Fr.ltF (Fr.ofInt 1) ⟨-532, 100⟩ = false
    ∧ format_percent (Val.vnum ⟨-532, 100⟩)
      = Val.vstr (fmt2 (Fr.mulF ⟨-532, 100⟩ (Fr.ofInt 100)) ++ "%") :=
  ⟨by decide, (c10_negative_percent.1 ⟨-532, 100⟩ (by decide)).1,
   (c10_negative_percent.1 ⟨-532, 100⟩ (by decide)).2⟩
